import Mathlib

/-!
Verification of the `pci_types` crate (`src/lib.rs`) against its
natural-language specification.

Machine integers (`u32`, `u16`, `u8`, `u64`) are embedded as `Nat`, with
explicit `% 2 ^ w` where Rust's fixed width matters.  A Rust panic (this is a
`no_std` crate, so a panic aborts the process) is modelled by the
`RunResult.abort` constructor, carrying the panic message.
-/

/-- `x.get_bits(lo..hi)` from the `bit_field` crate: the value of bits
`lo ≤ i < hi` of `v`, shifted down to bit 0. -/
def getBits (v lo hi : Nat) : Nat :=
  (v >>> lo) % 2 ^ (hi - lo)

/-- `x.set_bits(lo..hi, value)` from the `bit_field` crate: replaces bits
`lo ≤ i < hi` of `v` by `value`.  The crate asserts that `value` fits in the
bit range and panics otherwise; the panic is modelled by `none`. -/
def setBits (v lo hi value : Nat) : Option Nat :=
  if value < 2 ^ (hi - lo) then
    some ((v / 2 ^ hi) * 2 ^ hi + value * 2 ^ lo + v % 2 ^ lo)
  else
    none

/-- `u32::checked_add`: `none` exactly when the mathematical sum does not fit
in 32 bits. -/
def checked_add (a b : Nat) : Option Nat :=
  if a + b < 2 ^ 32 then some (a + b) else none

/-- Outcome of running a piece of Rust code that may panic.  `abort msg`
models a panic with the given message (a process abort in this `no_std`
crate); `ok` is normal completion. -/
inductive RunResult (α : Type) where
  | abort : String → RunResult α
  | ok : α → RunResult α
deriving DecidableEq

def trailingZerosAux : Nat → Nat → Nat
  | 0, _ => 0
  | fuel + 1, v => if v % 2 = 1 then 0 else 1 + trailingZerosAux fuel (v / 2)

/-- `u32::trailing_zeros`: number of trailing zero bits of a `u32`; `32` for
the value `0`. -/
def trailingZeros32 (v : Nat) : Nat :=
  trailingZerosAux 32 v

/-- `u32` left shift `v << n` with Rust's debug-build semantics: a shift
amount of 32 or more is an arithmetic overflow and panics; otherwise bits
shifted past bit 31 are discarded. -/
def shlU32 (v n : Nat) : RunResult Nat :=
  if n < 32 then RunResult.ok ((v <<< n) % 2 ^ 32)
  else RunResult.abort "attempt to shift left with overflow"

/-!
## The address model (`PciAddress`)

`PciAddress` is a newtype over `u32`; we embed its payload directly as a
`Nat` (< 2 ^ 32).  The derived `Ord` on the newtype is the numeric order on
the wrapped `u32`, i.e. the order on the embedded `Nat`.

The four `increment_*` methods mutate `self` in place; they are embedded as
functions from the old payload to a `RunResult` of the new payload.  Note
that in the source the result of `checked_add` is only unwrapped, never
written back to `self.0`, and the following `&=` keeps the bits *below* the
target field.
-/

namespace PciAddress

/-- `PciAddress::DEV_SHIFT`. -/
def DEV_SHIFT : Nat := 3

/-- `PciAddress::BUS_SHIFT`. -/
def BUS_SHIFT : Nat := 8

/-- `PciAddress::SEG_SHIFT`. -/
def SEG_SHIFT : Nat := 16

/-- `PciAddress::new(segment, bus, device, function)`.  The `set_bits` calls
assert that each argument fits its bit range (the arguments are `u8`/`u16`,
so e.g. a `device` of 200 panics); `none` models that panic. -/
def new (segment bus device function : Nat) : Option Nat :=
  (setBits 0 0 3 function).bind fun r1 =>
    (setBits r1 3 8 device).bind fun r2 =>
      (setBits r2 8 16 bus).bind fun r3 =>
        setBits r3 16 32 segment

/-- `PciAddress::segment`. -/
def segment (a : Nat) : Nat :=
  getBits a 16 32

/-- `PciAddress::bus`. -/
def bus (a : Nat) : Nat :=
  getBits a 8 16

/-- `PciAddress::device`. -/
def device (a : Nat) : Nat :=
  getBits a 3 8

/-- `PciAddress::function`. -/
def function (a : Nat) : Nat :=
  getBits a 0 3

/-- `PciAddress::increment_function`: `self.0.checked_add(1).unwrap();` — the
sum is computed and unwrapped but never stored, so on success the address is
returned unchanged. -/
def increment_function (a : Nat) : RunResult Nat :=
  match checked_add a 1 with
  | some _ => RunResult.ok a
  | none => RunResult.abort "called Option::unwrap() on a None value"

/-- `PciAddress::increment_device`: the checked sum is discarded, then
`self.0 &= (1 << DEV_SHIFT) - 1` keeps only bits 0..3. -/
def increment_device (a : Nat) : RunResult Nat :=
  match checked_add a (1 <<< DEV_SHIFT) with
  | some _ => RunResult.ok (a &&& ((1 <<< DEV_SHIFT) - 1))
  | none => RunResult.abort "called Option::unwrap() on a None value"

/-- `PciAddress::increment_bus`: the checked sum is discarded, then
`self.0 &= (1 << BUS_SHIFT) - 1` keeps only bits 0..8. -/
def increment_bus (a : Nat) : RunResult Nat :=
  match checked_add a (1 <<< BUS_SHIFT) with
  | some _ => RunResult.ok (a &&& ((1 <<< BUS_SHIFT) - 1))
  | none => RunResult.abort "called Option::unwrap() on a None value"

/-- `PciAddress::increment_segment`: the checked sum is discarded, then
`self.0 &= (1 << SEG_SHIFT) - 1` keeps only bits 0..16. -/
def increment_segment (a : Nat) : RunResult Nat :=
  match checked_add a (1 <<< SEG_SHIFT) with
  | some _ => RunResult.ok (a &&& ((1 <<< SEG_SHIFT) - 1))
  | none => RunResult.abort "called Option::unwrap() on a None value"

end PciAddress

/-- Claim C1: the claim says `increment_device` on an address with
device < 31 increments the device field, resets the function field to 0 and
keeps bus and segment.  The code instead discards the checked sum and masks
with `(1 << 3) - 1`, keeping only the function field and zeroing device, bus
and segment.  At address (segment 1, bus 1, device 1, function 1) = 65801 the
claim expects (1, 1, 2, 0) = 65808, but the code yields 1 =
(segment 0, bus 0, device 0, function 1). -/
theorem increment_device_keeps_only_function :
    PciAddress.new 1 1 1 1 = some 65801 ∧
    PciAddress.new 1 1 2 0 = some 65808 ∧
    PciAddress.increment_device 65801 = RunResult.ok 1 ∧
    PciAddress.segment 1 = 0 ∧ PciAddress.bus 1 = 0 ∧
    PciAddress.device 1 = 0 ∧ PciAddress.function 1 = 1 := by
  decide

/-- Claim C2: the claim says `increment_function` increments the function
field (carrying into device at function = 7).  The code computes
`self.0.checked_add(1)` but never writes the sum back, so the address is
unchanged.  At address (0, 0, 1, 1) = 9 the claim expects 10; at
(0, 0, 1, 7) = 15 the claim expects (0, 0, 2, 0) = 16; the code returns the
input in both cases. -/
theorem increment_function_is_noop :
    PciAddress.new 0 0 1 1 = some 9 ∧
    PciAddress.new 0 0 1 2 = some 10 ∧
    PciAddress.increment_function 9 = RunResult.ok 9 ∧
    PciAddress.new 0 0 1 7 = some 15 ∧
    PciAddress.new 0 0 2 0 = some 16 ∧
    PciAddress.increment_function 15 = RunResult.ok 15 := by
  decide

/-- Claim C3: the claim says each advance operation reports a recoverable
range-exhaustion error at the maximum representable address.  The code
instead panics: `checked_add` returns `None` and `unwrap()` aborts.  At
address 4294967295 = (segment 0xFFFF, bus 0xFF, device 0x1F, function 0x7),
all four operations abort. -/
theorem increment_at_max_address_aborts :
    PciAddress.new 65535 255 31 7 = some 4294967295 ∧
    PciAddress.increment_function 4294967295 =
      RunResult.abort "called Option::unwrap() on a None value" ∧
    PciAddress.increment_device 4294967295 =
      RunResult.abort "called Option::unwrap() on a None value" ∧
    PciAddress.increment_bus 4294967295 =
      RunResult.abort "called Option::unwrap() on a None value" ∧
    PciAddress.increment_segment 4294967295 =
      RunResult.abort "called Option::unwrap() on a None value" := by
  decide

/-!
## Round-trip and ordering of the address encoding
-/

theorem new_encodes (segment bus device function : Nat)
    (hs : segment < 65536) (hb : bus < 256) (hd : device < 32) (hf : function < 8) :
    PciAddress.new segment bus device function =
      some (function + 8 * device + 256 * bus + 65536 * segment) := by
  simp only [PciAddress.new, setBits]
  norm_num [hf, hd, hb, hs]
  omega

/-- Claim C7: constructing an address from in-range fields succeeds and the
four accessors read back exactly the inputs. -/
theorem new_roundtrip (segment bus device function : Nat)
    (hs : segment < 65536) (hb : bus < 256) (hd : device < 32) (hf : function < 8) :
    ∃ a, PciAddress.new segment bus device function = some a ∧
      PciAddress.segment a = segment ∧ PciAddress.bus a = bus ∧
      PciAddress.device a = device ∧ PciAddress.function a = function := by
  refine ⟨function + 8 * device + 256 * bus + 65536 * segment,
    new_encodes segment bus device function hs hb hd hf, ?_, ?_, ?_, ?_⟩
  all_goals
    simp only [PciAddress.segment, PciAddress.bus, PciAddress.device,
      PciAddress.function, getBits, Nat.shiftRight_eq_div_pow]
    norm_num
    omega

theorem new_roundtrip_witness :
    ∃ a, PciAddress.new 7 6 5 4 = some a ∧
      PciAddress.segment a = 7 ∧ PciAddress.bus a = 6 ∧
      PciAddress.device a = 5 ∧ PciAddress.function a = 4 :=
  new_roundtrip 7 6 5 4 (by decide) (by decide) (by decide) (by decide)

/-- Strict lexicographic order on (segment, bus, device, function) tuples,
as the spec words it. -/
def lexLt (s1 b1 d1 f1 s2 b2 d2 f2 : Nat) : Prop :=
  s1 < s2 ∨ (s1 = s2 ∧ (b1 < b2 ∨ (b1 = b2 ∧ (d1 < d2 ∨ (d1 = d2 ∧ f1 < f2)))))

/-- Claim C8: for in-range field tuples, the numeric order of the encoded
addresses (the derived `Ord` on the `u32` newtype) coincides with the
lexicographic order of (segment, bus, device, function); in particular
`new(s,b,d,f) < new(s,b,d,f+1)` for `f < 7`. -/
theorem encode_order_matches_lex (s1 b1 d1 f1 s2 b2 d2 f2 a1 a2 : Nat)
    (hs1 : s1 < 65536) (hb1 : b1 < 256) (hd1 : d1 < 32) (hf1 : f1 < 8)
    (hs2 : s2 < 65536) (hb2 : b2 < 256) (hd2 : d2 < 32) (hf2 : f2 < 8)
    (h1 : PciAddress.new s1 b1 d1 f1 = some a1)
    (h2 : PciAddress.new s2 b2 d2 f2 = some a2) :
    (a1 < a2 ↔ lexLt s1 b1 d1 f1 s2 b2 d2 f2) ∧
    (s2 = s1 → b2 = b1 → d2 = d1 → f1 < 7 → f2 = f1 + 1 → a1 < a2) := by
  rw [new_encodes s1 b1 d1 f1 hs1 hb1 hd1 hf1, Option.some.injEq] at h1
  rw [new_encodes s2 b2 d2 f2 hs2 hb2 hd2 hf2, Option.some.injEq] at h2
  subst h1 h2
  unfold lexLt
  constructor
  · constructor
    · intro h
      omega
    · intro h
      omega
  · intro e1 e2 e3 e4 e5
    omega

theorem encode_order_matches_lex_witness :
    ((9 : Nat) < 10 ↔ lexLt 0 0 1 1 0 0 1 2) ∧
    ((0 : Nat) = 0 → (0 : Nat) = 0 → (1 : Nat) = 1 → 1 < 7 → 2 = 1 + 1 →
      (9 : Nat) < 10) :=
  encode_order_matches_lex 0 0 1 1 0 0 1 2 9 10
    (by decide) (by decide) (by decide) (by decide)
    (by decide) (by decide) (by decide) (by decide)
    (by decide) (by decide)

/-!
## Configuration-space access

`ConfigRegionAccess` is the crate's external capability: `read` and `write`
over an abstract device state `σ`.  The Rust trait's `read` takes `&self`,
but hardware config-space reads may have device-visible effects, so the
embedding threads the state through reads as well; a pure device simply
returns its state unchanged.
-/

structure ConfigRegionAccess (σ : Type) where
  read : σ → Nat → Nat → Nat × σ
  write : σ → Nat → Nat → Nat → σ

/-- One observable interaction with the access capability. -/
inductive Event where
  | readEv : Nat → Nat → Nat → Event
  | writeEv : Nat → Nat → Nat → Event
deriving DecidableEq

/-- Wraps an access capability so that every read and write is appended to a
trace, without changing the values observed. -/
def traced {σ : Type} (acc : ConfigRegionAccess σ) :
    ConfigRegionAccess (σ × List Event) where
  read := fun st addr off =>
    ((acc.read st.1 addr off).1,
      ((acc.read st.1 addr off).2,
        st.2 ++ [Event.readEv addr off (acc.read st.1 addr off).1]))
  write := fun st addr off v =>
    (acc.write st.1 addr off v, st.2 ++ [Event.writeEv addr off v])

/-- The write events of a trace, in order. -/
def writeEvents : List Event → List Event
  | [] => []
  | Event.writeEv a o v :: rest => Event.writeEv a o v :: writeEvents rest
  | Event.readEv _ _ _ :: rest => writeEvents rest

/-- A device whose reads return a fixed value per offset and whose registers
ignore writes (all bits hard-wired). -/
def fixedAccess (f : Nat → Nat) : ConfigRegionAccess Unit where
  read := fun s _ off => (f off, s)
  write := fun s _ _ _ => s

/-- A RAM-like device: reads return the last value written to the offset. -/
def ramAccess : ConfigRegionAccess (Nat → Nat) where
  read := fun s _ off => (s off, s)
  write := fun s _ off v => fun o => if o = off then v else s o

/-!
## Status register and endpoint header
-/

/-- `StatusRegister` wraps the 16-bit status word (from `register.rs`, which
re-exports into `lib.rs`). -/
structure StatusRegister where
  data : Nat
deriving DecidableEq

/-- Modelled from the spec: `StatusRegister::has_capability_list`.  The
`register` module is not under `src/`; the spec requires the status
register's bit positions to match the PCI 3.0 layout, where the
capabilities-list flag is bit 4 of the 16-bit status word. -/
def StatusRegister.has_capability_list (r : StatusRegister) : Bool :=
  r.data.testBit 4

/-- The `Bar` enum. -/
inductive Bar where
  | Memory32 : Nat → Nat → Bool → Bar
  | Memory64 : Nat → Nat → Bool → Bar
  | Io : Nat → Bar
deriving DecidableEq

namespace EndpointHeader

/-- `EndpointHeader::status`: decodes the upper 16 bits of the register at
offset 0x4.  `address` is the `PciAddress` wrapped by the header. -/
def status {σ : Type} (acc : ConfigRegionAccess σ) (address : Nat) (s : σ) :
    StatusRegister × σ :=
  let r := acc.read s address 0x4
  (⟨getBits r.1 16 32⟩, r.2)

/-- `EndpointHeader::capability_pointer`: bits 0..8 of offset 0x34 when the
status register's capability-list flag is set, else 0 without touching
offset 0x34. -/
def capability_pointer {σ : Type} (acc : ConfigRegionAccess σ) (address : Nat)
    (s : σ) : Nat × σ :=
  let st := status acc address s
  if (st.1.has_capability_list) = true then
    let r := acc.read st.2 address 0x34
    (getBits r.1 0 8, r.2)
  else
    (0, st.2)

/-- Modelled from the spec: the capability iterator's traversal (the
`capability` module is not under `src/`).  Starting from `offset`, it
terminates at offset 0, guards against revisiting an offset (malformed
list), and otherwise reads the 32-bit word at the offset, yields
(id = bits 0..8, offset) and steps to the next pointer (bits 8..16).  `fuel`
bounds the recursion; 257 steps cover every possible 8-bit offset. -/
def capabilityItems {σ : Type} (acc : ConfigRegionAccess σ) (address : Nat) :
    Nat → Nat → List Nat → σ → List (Nat × Nat)
  | 0, _, _, _ => []
  | _ + 1, 0, _, _ => []
  | fuel + 1, offset, visited, s =>
    if offset ∈ visited then
      []
    else
      let r := acc.read s address offset
      (getBits r.1 0 8, offset) ::
        capabilityItems acc address fuel (getBits r.1 8 16) (offset :: visited) r.2

/-- `EndpointHeader::capabilities`: an iterator rooted at the capability
pointer; its yielded items are modelled as the list `capabilityItems`
produces. -/
def capabilities {σ : Type} (acc : ConfigRegionAccess σ) (address : Nat)
    (s : σ) : List (Nat × Nat) :=
  let p := capability_pointer acc address s
  capabilityItems acc address 257 p.1 [] p.2

/-- `EndpointHeader::bar(slot, access)`.  Follows `lib.rs` lines 274-329:
read the raw BAR; on the memory path (bit 0 clear) probe the size by writing
all-ones, reading back and writing the decoded `address` value, return
`none` on a zero read-back, compute the size as a `u32` shift by the
trailing-zero count of the masked read-back, then decode the width bits,
panicking on a reserved width encoding. -/
def bar {σ : Type} (acc : ConfigRegionAccess σ) (address slot : Nat) (s : σ) :
    RunResult (Option Bar) × σ :=
  let offset := 0x10 + slot * 4
  let r0 := acc.read s address offset
  let bar := r0.1
  if bar.testBit 0 = false then
    let prefetchable := bar.testBit 3
    let addr := getBits bar 4 32 <<< 4
    let s1 := acc.write r0.2 address offset 0xffffffff
    let r1 := acc.read s1 address offset
    let readback := r1.1
    let s2 := acc.write r1.2 address offset addr
    if readback = 0 then
      (RunResult.ok none, s2)
    else
      match setBits readback 0 4 0 with
      | none => (RunResult.abort "value does not fit into bit range", s2)
      | some rb =>
        match shlU32 1 (trailingZeros32 rb) with
        | RunResult.abort m => (RunResult.abort m, s2)
        | RunResult.ok size =>
          if getBits bar 1 3 = 0 then
            (RunResult.ok (some (Bar.Memory32 addr size prefetchable)), s2)
          else if getBits bar 1 3 = 2 then
            let r2 := acc.read s2 address (offset + 4)
            match setBits addr 32 64 r2.1 with
            | none => (RunResult.abort "value does not fit into bit range", r2.2)
            | some addr64 =>
              (RunResult.ok (some (Bar.Memory64 addr64 size prefetchable)), r2.2)
          else
            (RunResult.abort "BAR Memory type is reserved!", s2)
  else
    (RunResult.ok (some (Bar.Io (getBits bar 2 32))), r0.2)

end EndpointHeader

/-!
## BAR decoding claims
-/

/-- Claim C4: the claim says a reserved memory-width encoding (bits 1-2 not
0b00 and not 0b10) is reported as a recoverable decode error.  The code
instead panics with "BAR Memory type is reserved!".  Failing input: a
RAM-like device whose BAR 0 reads back 0x2 (memory BAR, width bits 0b01),
probe read-back 0xffffffff. -/
theorem bar_reserved_width_aborts :
    (EndpointHeader.bar ramAccess 0 0 (fun o => if o = 0x10 then 2 else 0)).1 =
      RunResult.abort "BAR Memory type is reserved!" := by
  decide

theorem shlU32_one_eq (n : Nat) (h : n < 32) : (1 <<< n) % 2 ^ 32 = 1 <<< n := by
  rw [Nat.shiftLeft_eq, one_mul]
  exact Nat.mod_eq_of_lt (Nat.pow_lt_pow_right one_lt_two h)

/-- Claim C10: for a memory BAR whose probe read-back is nonzero but has all
its set bits in bits 0-3, masking the low 4 bits yields 0, the trailing-zero
count is 32, and the `u32` shift `1 << 32` overflows, so `bar` aborts rather
than returning a size. -/
theorem bar_low_readback_shift_aborts {σ : Type} (acc : ConfigRegionAccess σ)
    (address slot : Nat) (s : σ) (raw rb : Nat) (s1 s2 : σ)
    (h0 : acc.read s address (0x10 + slot * 4) = (raw, s1))
    (hmem : raw.testBit 0 = false)
    (h1 : acc.read (acc.write s1 address (0x10 + slot * 4) 0xffffffff) address
        (0x10 + slot * 4) = (rb, s2))
    (hrb0 : rb ≠ 0) (hlow : rb < 16) :
    (EndpointHeader.bar acc address slot s).1 =
      RunResult.abort "attempt to shift left with overflow" := by
  have hset : setBits rb 0 4 0 = some 0 := by
    simp [setBits]
    omega
  have htz : trailingZeros32 0 = 32 := by decide
  have hshl : shlU32 1 32 = RunResult.abort "attempt to shift left with overflow" := by
    decide
  simp only [EndpointHeader.bar, h0, hmem]
  norm_num [h1, hrb0, hset, htz, hshl]

theorem bar_low_readback_shift_aborts_witness :
    (EndpointHeader.bar (fixedAccess (fun o => if o = 0x10 then 4 else 0)) 0 0 ()).1 =
      RunResult.abort "attempt to shift left with overflow" :=
  bar_low_readback_shift_aborts (fixedAccess (fun o => if o = 0x10 then 4 else 0))
    0 0 () 4 4 () () (by decide) (by decide) (by decide) (by decide) (by decide)

/-- Claim C5, counterexample: for a RAM-like device whose BAR 0 raw value is
8 (a prefetchable 32-bit memory BAR), the probe's restore write carries the
value 0 (the raw value with low 4 bits cleared), not the originally read raw
value 8: the write sequence the claim requires does not occur. -/
theorem bar_restore_write_differs_from_raw :
    (fun o => if o = 0x10 then 8 else 0 : Nat → Nat) 0x10 = 8 ∧
    writeEvents
        (EndpointHeader.bar (traced ramAccess) 0 0
          ((fun o => if o = 0x10 then 8 else 0), [])).2.2 =
      [Event.writeEv 0 0x10 0xffffffff, Event.writeEv 0 0x10 0] ∧
    writeEvents
        (EndpointHeader.bar (traced ramAccess) 0 0
          ((fun o => if o = 0x10 then 8 else 0), [])).2.2 ≠
      [Event.writeEv 0 0x10 0xffffffff, Event.writeEv 0 0x10 8] := by
  refine ⟨by decide, by decide, by decide⟩

/-- Claim C5 (amended): on the memory path `bar` performs, at the BAR's
offset, exactly the write sequence: write 0xFFFFFFFF, read back, write back
the originally read raw value with its low 4 bits masked to zero (the
decoded address field) — and this restore write happens on every path,
including the path that returns absence. -/
theorem bar_memory_probe_write_sequence {σ : Type} (acc : ConfigRegionAccess σ)
    (address slot : Nat) (s : σ) (raw rb : Nat) (s1 s2 : σ)
    (h0 : acc.read s address (0x10 + slot * 4) = (raw, s1))
    (hmem : raw.testBit 0 = false)
    (h1 : acc.read (acc.write s1 address (0x10 + slot * 4) 0xffffffff) address
        (0x10 + slot * 4) = (rb, s2)) :
    List.take 4 (EndpointHeader.bar (traced acc) address slot (s, [])).2.2 =
      [Event.readEv address (0x10 + slot * 4) raw,
       Event.writeEv address (0x10 + slot * 4) 0xffffffff,
       Event.readEv address (0x10 + slot * 4) rb,
       Event.writeEv address (0x10 + slot * 4) (getBits raw 4 32 <<< 4)] ∧
    writeEvents (EndpointHeader.bar (traced acc) address slot (s, [])).2.2 =
      [Event.writeEv address (0x10 + slot * 4) 0xffffffff,
       Event.writeEv address (0x10 + slot * 4) (getBits raw 4 32 <<< 4)] := by
  have key : ∃ rest,
      (EndpointHeader.bar (traced acc) address slot (s, [])).2.2 =
        Event.readEv address (0x10 + slot * 4) raw ::
        Event.writeEv address (0x10 + slot * 4) 0xffffffff ::
        Event.readEv address (0x10 + slot * 4) rb ::
        Event.writeEv address (0x10 + slot * 4) (getBits raw 4 32 <<< 4) :: rest ∧
      writeEvents rest = [] := by
    simp only [EndpointHeader.bar, traced, h0, hmem]
    norm_num [h1, setBits]
    repeat'
      first
      | exact ⟨_, rfl, rfl⟩
      | split
  obtain ⟨rest, hT, hw⟩ := key
  rw [hT]
  refine ⟨rfl, ?_⟩
  simp [writeEvents, hw]

theorem bar_memory_probe_write_sequence_witness :
    List.take 4 (EndpointHeader.bar (traced ramAccess) 0 0
        ((fun o => if o = 0x10 then 8 else 0), [])).2.2 =
      [Event.readEv 0 (0x10 + 0 * 4) 8,
       Event.writeEv 0 (0x10 + 0 * 4) 0xffffffff,
       Event.readEv 0 (0x10 + 0 * 4) 0xffffffff,
       Event.writeEv 0 (0x10 + 0 * 4) (getBits 8 4 32 <<< 4)] ∧
    writeEvents (EndpointHeader.bar (traced ramAccess) 0 0
        ((fun o => if o = 0x10 then 8 else 0), [])).2.2 =
      [Event.writeEv 0 (0x10 + 0 * 4) 0xffffffff,
       Event.writeEv 0 (0x10 + 0 * 4) (getBits 8 4 32 <<< 4)] :=
  bar_memory_probe_write_sequence ramAccess 0 0 (fun o => if o = 0x10 then 8 else 0)
    8 0xffffffff (fun o => if o = 0x10 then 8 else 0)
    (ramAccess.write (fun o => if o = 0x10 then 8 else 0) 0 (0x10 + 0 * 4) 0xffffffff)
    rfl (by decide) rfl

/-- Claim C6: on the memory path, a probe read-back of exactly zero yields
absence (`ok none`) — not an error, not a panic — and whenever a memory
resource is returned, its size is 1 shifted left by the trailing-zero count
of the read-back value with its low 4 bits masked to zero. -/
theorem bar_zero_readback_absence_and_size {σ : Type} (acc : ConfigRegionAccess σ)
    (address slot : Nat) (s : σ) (raw rb : Nat) (s1 s2 : σ)
    (h0 : acc.read s address (0x10 + slot * 4) = (raw, s1))
    (hmem : raw.testBit 0 = false)
    (h1 : acc.read (acc.write s1 address (0x10 + slot * 4) 0xffffffff) address
        (0x10 + slot * 4) = (rb, s2)) :
    (rb = 0 → (EndpointHeader.bar acc address slot s).1 = RunResult.ok none) ∧
    (∀ a sz p, (EndpointHeader.bar acc address slot s).1 =
        RunResult.ok (some (Bar.Memory32 a sz p)) →
      sz = 1 <<< trailingZeros32 (rb / 2 ^ 4 * 2 ^ 4)) ∧
    (∀ a sz p, (EndpointHeader.bar acc address slot s).1 =
        RunResult.ok (some (Bar.Memory64 a sz p)) →
      sz = 1 <<< trailingZeros32 (rb / 2 ^ 4 * 2 ^ 4)) := by
  refine ⟨?_, ?_, ?_⟩
  · intro hrb
    simp only [EndpointHeader.bar, h0, hmem]
    norm_num [h1, hrb]
  · intro a sz p hres
    simp only [EndpointHeader.bar, h0, hmem] at hres
    norm_num [h1, setBits] at hres
    split at hres
    · simp at hres
    · split at hres
      · simp at hres
      · split at hres
        · simp at hres
          obtain ⟨-, hsz, -⟩ := hres
          rename_i hrb x size heq hw0
          subst hsz
          simp only [shlU32] at heq
          split at heq
          · rename_i htz
            simp only [RunResult.ok.injEq] at heq
            rw [← heq, shlU32_one_eq _ htz]
            norm_num [Nat.mod_one]
          · simp at heq
        · split at hres
          · split at hres
            · simp at hres
            · simp at hres
          · simp at hres
  · intro a sz p hres
    simp only [EndpointHeader.bar, h0, hmem] at hres
    norm_num [h1, setBits] at hres
    split at hres
    · simp at hres
    · split at hres
      · simp at hres
      · split at hres
        · simp at hres
        · split at hres
          · split at hres
            · simp at hres
            · simp at hres
              obtain ⟨-, hsz, -⟩ := hres
              rename_i hrb x size heq hw0 hw2 y addr64 hset
              subst hsz
              simp only [shlU32] at heq
              split at heq
              · rename_i htz
                simp only [RunResult.ok.injEq] at heq
                rw [← heq, shlU32_one_eq _ htz]
                norm_num [Nat.mod_one]
              · simp at heq
          · simp at hres

theorem bar_zero_readback_absence_and_size_witness :
    (EndpointHeader.bar (fixedAccess (fun _ => 0)) 0 0 ()).1 = RunResult.ok none ∧
    (0x10000 : Nat) = 1 <<< trailingZeros32 (0xFFFF0000 / 2 ^ 4 * 2 ^ 4) :=
  ⟨(bar_zero_readback_absence_and_size (fixedAccess (fun _ => 0)) 0 0 () 0 0 () ()
      rfl (by decide) rfl).1 rfl,
   (bar_zero_readback_absence_and_size
      (fixedAccess (fun o => if o = 0x10 then 0xFFFF0000 else 0)) 0 0 ()
      0xFFFF0000 0xFFFF0000 () () rfl (by decide) rfl).2.1
      0xFFFF0000 0x10000 false (by decide)⟩

/-!
## Capability list claims
-/

theorem capabilityItems_offset_zero {σ : Type} (acc : ConfigRegionAccess σ)
    (address fuel : Nat) (visited : List Nat) (s : σ) :
    EndpointHeader.capabilityItems acc address (fuel + 1) 0 visited s = [] :=
  rfl

/-- Claim C9: when the status register's capability-list flag (bit 4 of the
status word, read from the upper half of offset 0x4) is false,
`capability_pointer` returns 0 and the only access performed is the status
read — offset 0x34 is never read — and `capabilities()` yields nothing. -/
theorem capability_pointer_flag_false {σ : Type} (acc : ConfigRegionAccess σ)
    (address : Nat) (s : σ) (v : Nat) (s1 : σ)
    (h0 : acc.read s address 0x4 = (v, s1))
    (hflag : (getBits v 16 32).testBit 4 = false) :
    (EndpointHeader.capability_pointer acc address s).1 = 0 ∧
    (EndpointHeader.capability_pointer (traced acc) address (s, [])).2.2 =
      [Event.readEv address 0x4 v] ∧
    EndpointHeader.capabilities acc address s = [] := by
  refine ⟨?_, ?_, ?_⟩
  · simp [EndpointHeader.capability_pointer, EndpointHeader.status,
      StatusRegister.has_capability_list, h0, hflag]
  · simp [EndpointHeader.capability_pointer, EndpointHeader.status,
      StatusRegister.has_capability_list, traced, h0, hflag]
  · have hp : EndpointHeader.capability_pointer acc address s = (0, s1) := by
      simp [EndpointHeader.capability_pointer, EndpointHeader.status,
        StatusRegister.has_capability_list, h0, hflag]
    simp only [EndpointHeader.capabilities, hp]
    exact capabilityItems_offset_zero acc address 256 [] s1

theorem capability_pointer_flag_false_witness :
    (EndpointHeader.capability_pointer (fixedAccess (fun _ => 0)) 0 ()).1 = 0 ∧
    (EndpointHeader.capability_pointer (traced (fixedAccess (fun _ => 0))) 0
        ((), [])).2.2 = [Event.readEv 0 0x4 0] ∧
    EndpointHeader.capabilities (fixedAccess (fun _ => 0)) 0 () = [] :=
  capability_pointer_flag_false (fixedAccess (fun _ => 0)) 0 () 0 () rfl (by decide)
